import Mathlib

/-!
Shallow embedding of the multi-agent discussion coordinator of this repository
(`ForumGraph`, `ModeratorAgent`, `RAGCriticAgent`, `WebCriticAgent`,
`InterviewAgent/llms/openai_llm.py`), together with proofs of the claims
about it.

Modelling conventions:
* Python `dict`/JSON values are modelled by the inductive `Json` below, with
  JSON numbers as rationals.
* Python strings are modelled as `List Char`; `str.strip`, `str.split` and
  `str.startswith` are translated character by character (`pyStrip`,
  `splitOnChar`, `startsWithL`).  `str.strip()`'s whitespace set is modelled
  by the six ASCII whitespace characters.
* The LLM backend is an external collaborator: one LLM-call-plus-JSON-parse
  pipeline is modelled by the oracle type `LlmOutcome` (parsed JSON, a JSON
  decode error, or any other exception), matching the `try`/`except` shape
  of the source.
* Code that can raise an uncaught Python exception is modelled in
  `Except String`; a `.error` value is an exception propagating to the
  caller.
-/

/-- JSON-like values, the model of Python `dict`/`list`/scalar values
(numbers as rationals). An object is a list of key/value pairs with the
Python-dict convention that keys are unique and looked up by first match. -/
inductive Json where
  | null : Json
  | bool (b : Bool) : Json
  | num (q : ℚ) : Json
  | str (s : String) : Json
  | arr (xs : List Json) : Json
  | obj (fields : List (String × Json)) : Json
deriving Repr

/-- Python truthiness (`bool(x)`) on a JSON value: `None`, `False`, `0`,
`""`, `[]` and `{}` are falsy, everything else truthy. -/
def pyFalsy : Json → Bool
  | .null => true
  | .bool b => !b
  | .num q => q == 0
  | .str s => s == ""
  | .arr xs => xs.isEmpty
  | .obj fs => fs.isEmpty

/-- Python truthiness of an optional JSON value (`None` is falsy). -/
def pyFalsyOpt : Option Json → Bool
  | none => true
  | some j => pyFalsy j

/-- Object-field lookup with a default, i.e. Python `d.get(key, default)`
for a `d` that is a dict. -/
def lookupD (fs : List (String × Json)) (key : String) (dflt : Json) : Json :=
  (fs.lookup key).getD dflt

/-- Python `d.get(key, default)`: on a non-dict value attribute access
raises `AttributeError`, modelled as `.error`. -/
def dictGet (j : Json) (key : String) (dflt : Json) : Except String Json :=
  match j with
  | .obj fs => .ok (lookupD fs key dflt)
  | _ => .error "AttributeError: value has no attribute get"

/-- Whether a JSON value is a dict. -/
def jsonIsObj : Json → Bool
  | .obj _ => true
  | _ => false

/-- Python `j == s` for a string literal `s`: true exactly for the equal
string value (values of any other type compare unequal). -/
def jsonIsStr (j : Json) (s : String) : Bool :=
  match j with
  | .str t => t == s
  | _ => false

/-- Whether a JSON dict has the given key (used for "error-tagged" records). -/
def jsonHasKey (j : Json) (key : String) : Bool :=
  match j with
  | .obj fs => (fs.lookup key).isSome
  | _ => false

/-- Numeric field of a JSON dict, if present and numeric. -/
def getNumField (j : Json) (key : String) : Option ℚ :=
  match j with
  | .obj fs =>
    match fs.lookup key with
    | some (.num q) => some q
    | _ => none
  | _ => none

/-! ### Python string primitives on `List Char` -/

/-- The whitespace characters recognised by `str.strip()` (ASCII subset:
space, tab, newline, vertical tab, form feed, carriage return). -/
def pyIsSpace (c : Char) : Bool :=
  c == ' ' || c == '\t' || c == '\n' || c == '\u000b' || c == '\u000c' || c == '\r'

/-- Leading-whitespace removal (`str.lstrip()`). -/
def stripLeft (l : List Char) : List Char :=
  l.dropWhile pyIsSpace

/-- Trailing-whitespace removal (`str.rstrip()`). -/
def stripRight (l : List Char) : List Char :=
  (l.reverse.dropWhile pyIsSpace).reverse

/-- Python `str.strip()`. -/
def pyStrip (l : List Char) : List Char :=
  stripRight (stripLeft l)

/-- Python `str.split(sep)` for a one-character separator: splits on every
occurrence, keeping empty pieces, and never returns an empty list. -/
def splitOnChar (c : Char) : List Char → List (List Char)
  | [] => [[]]
  | x :: xs =>
    if x == c then [] :: splitOnChar c xs
    else
      match splitOnChar c xs with
      | [] => [[x]]
      | h :: t => (x :: h) :: t

/-- Python `str.startswith(pre)`; `startsWithL l pre` checks that `pre` is a
prefix of `l`. -/
def startsWithL : List Char → List Char → Bool
  | _, [] => true
  | [], _ :: _ => false
  | x :: xs, y :: ys => x == y && startsWithL xs ys

/-- Python `line.split("：", 1)[1]`: everything after the first fullwidth
colon.  In the source this index access is guarded by a `startswith` check
on a tag that contains the colon, so the colon is always present there. -/
def afterFirstColon (l : List Char) : List Char :=
  (l.dropWhile (fun c => !(c == '：'))).drop 1

/-! ### The transcript tags and `_parse_message`

The identical `_parse_message` helper appears in `RAGCriticAgent/agent.py`,
`WebCriticAgent/agent.py`, `ModeratorAgent/agent.py` and
`ForumGraph/graph/nodes.py`; it is modelled once. -/

/-- The tag `"面试官："` marking an interviewer (question) line. -/
def interviewerTag : List Char := ['面', '试', '官', '：']

/-- The tag `"AI："`, the alternative question-line tag. -/
def aiTag : List Char := ['A', 'I', '：']

/-- The tag `"用户："` marking a candidate (answer) line. -/
def userTag : List Char := ['用', '户', '：']

/-- The tag `"候选人："`, the alternative answer-line tag. -/
def candidateTag : List Char := ['候', '选', '人', '：']

/-- Loop body of `_parse_message`: scan the lines in order, remembering the
content after the colon of the last question-tagged line and of the last
answer-tagged line. -/
def parseMessageLoop :
    List (List Char) → Option (List Char) × Option (List Char) →
    Option (List Char) × Option (List Char)
  | [], acc => acc
  | line :: rest, (q, a) =>
    let l := pyStrip line
    if startsWithL l interviewerTag || startsWithL l aiTag then
      parseMessageLoop rest (some (pyStrip (afterFirstColon l)), a)
    else if startsWithL l userTag || startsWithL l candidateTag then
      parseMessageLoop rest (q, some (pyStrip (afterFirstColon l)))
    else
      parseMessageLoop rest (q, a)

/-- `_parse_message(message)`: strip the message, split on newlines, and
extract `(question, user_answer)` from the tagged lines. -/
def parseMessage (message : List Char) : Option (List Char) × Option (List Char) :=
  parseMessageLoop (splitOnChar '\n' (pyStrip message)) (none, none)

/-- Python truthiness of an optional string: `None` and `""` are falsy
(the `if not question or not user_answer` check of the critics). -/
def pyFalsyStrOpt : Option (List Char) → Bool
  | none => true
  | some l => l.isEmpty

/-- Whether `_parse_message` recovers both a (truthy) question and a
(truthy) answer from the message. -/
def qaRecovered (message : List Char) : Bool :=
  !pyFalsyStrOpt (parseMessage message).1 && !pyFalsyStrOpt (parseMessage message).2

/-- The transcript built by `ForumAgent.run_discussion`:
`f"面试官：{question}\n用户：{user_answer}"`. -/
def buildMessage (question answer : List Char) : List Char :=
  interviewerTag ++ question ++ '\n' :: (userTag ++ answer)

/-! ### LLM boundary -/

/-- Outcome of one "call the LLM, extract and parse JSON" pipeline
(the `try` body shared by the agents): either a successfully parsed JSON
value, a `json.JSONDecodeError` (carrying the raw response text), or any
other exception (LLM/network failure). -/
inductive LlmOutcome where
  | parsed (j : Json) : LlmOutcome
  | decodeError (raw errMsg : String) : LlmOutcome
  | failure (errMsg : String) : LlmOutcome
deriving Repr

/-- Whether the LLM-call-plus-parse pipeline failed (any exception). -/
def llmFailed : LlmOutcome → Bool
  | .parsed _ => false
  | .decodeError _ _ => true
  | .failure _ => true

/-- `ModeratorAgent._make_decision_with_llm`: return the parsed decision, or
on any exception the default decision
`{should_continue: False, next_step: "moderator_summarize", reason, current_speaker: "moderator"}`. -/
def makeDecisionWithLLM (o : LlmOutcome) : Json :=
  match o with
  | .parsed d => d
  | .decodeError _ e =>
    .obj [("should_continue", .bool false), ("next_step", .str "moderator_summarize"),
          ("reason", .str ("决策失败：" ++ e)), ("current_speaker", .str "moderator")]
  | .failure e =>
    .obj [("should_continue", .bool false), ("next_step", .str "moderator_summarize"),
          ("reason", .str ("决策失败：" ++ e)), ("current_speaker", .str "moderator")]

/-- The error-tagged critique a critic returns when the LLM comment pipeline
fails (`_generate_comment_with_llm` of both critics: one handler for
`json.JSONDecodeError`, one for any other exception). -/
def generateCommentWithLLM (o : LlmOutcome) : Json :=
  match o with
  | .parsed j => j
  | .decodeError raw e =>
    .obj [("error", .str "LLM 返回的 JSON 格式不正确"), ("raw_response", .str raw),
          ("parse_error", .str e)]
  | .failure e =>
    .obj [("error", .str "生成评论时发生错误"), ("exception", .str e)]

/-- `ModeratorAgent._generate_final_evaluation_with_llm`: parsed evaluation,
or an error-tagged record on `json.JSONDecodeError` or any other exception. -/
def generateFinalEvaluationWithLLM (o : LlmOutcome) : Json :=
  match o with
  | .parsed j => j
  | .decodeError raw e =>
    .obj [("error", .str "LLM 返回的 JSON 格式不正确"), ("raw_response", .str raw),
          ("parse_error", .str e)]
  | .failure e =>
    .obj [("error", .str "生成最终评价时发生错误"), ("exception", .str e)]

/-! ### The shared `ForumState` -/

/-- `ForumGraph/graph/state.py`'s `ForumState` TypedDict.  Python does not
enforce the annotated types, and `decide_next_step` stores raw
`decision.get(...)` values into `should_continue` / `next_step` /
`current_speaker`, so those three fields are modelled as `Json`. -/
structure ForumState where
  session_id : String
  user_id : String
  message : List Char
  interview_context : Option Json
  current_round : Nat
  max_rounds : Nat
  current_speaker : Json
  rag_critic_comment : Option Json
  web_critic_comment : Option Json
  messages : List Json
  discussion_history : List Json
  final_evaluation : Option Json
  next_step : Json
  should_continue : Json
  metadata : Option Json
deriving Repr

/-- The `{round, rag_comment, web_comment, timestamp}` snapshot appended to
`discussion_history` by the continue branch of `decide_next_step`
(`datetime.now().isoformat()` is the oracle `ts`). -/
def moderatorHistoryEntry (round : Nat) (rag web : Option Json) (ts : String) : Json :=
  .obj [("round", .num (round : ℚ)), ("rag_comment", (rag.getD .null)),
        ("web_comment", (web.getD .null)), ("timestamp", .str ts)]

/-- The three `decision.get(...)` reads of `decide_next_step`
(`should_continue`/`next_step`/`current_speaker` with their defaults); a
non-dict decision makes all three raise `AttributeError`. -/
def decisionFields (d : Json) : Except String (Json × Json × Json) :=
  match d with
  | .obj fs =>
    .ok (lookupD fs "should_continue" (.bool false),
         lookupD fs "next_step" (.str "end"),
         lookupD fs "current_speaker" (.str "moderator"))
  | _ => .error "AttributeError: decision has no attribute get"

/-- Whether a decision dict decides to continue in the sense of the continue
branch of `decide_next_step`: its `should_continue` value is truthy and its
`next_step` value equals `"rag_critic"`. -/
def decisionContinues (d : Json) : Bool :=
  match d with
  | .obj fs =>
    !pyFalsy (lookupD fs "should_continue" (.bool false)) &&
      jsonIsStr (lookupD fs "next_step" (.str "end")) "rag_critic"
  | _ => false

/-- `ModeratorAgent.decide_next_step`.  `ts` is the
`datetime.now().isoformat()` timestamp and `o` the LLM decision pipeline
outcome; a `.error` result is an uncaught Python exception. -/
def decideNextStep (ts : String) (o : LlmOutcome) (s : ForumState) : Except String ForumState :=
  if s.current_round == 1 && pyFalsyOpt s.rag_critic_comment then
    .ok { s with next_step := .str "rag_critic", current_speaker := .str "rag_critic",
                 should_continue := .bool true }
  else if !pyFalsyOpt s.rag_critic_comment && pyFalsyOpt s.web_critic_comment then
    .ok { s with next_step := .str "web_critic", current_speaker := .str "web_critic",
                 should_continue := .bool true }
  else if !pyFalsyOpt s.rag_critic_comment && !pyFalsyOpt s.web_critic_comment then
    match decisionFields (makeDecisionWithLLM o) with
    | .error e => .error e
    | .ok (sc, ns, csp) =>
      let s1 := { s with should_continue := sc, next_step := ns, current_speaker := csp }
      if !pyFalsy sc && jsonIsStr ns "rag_critic" then
        .ok { s1 with
              discussion_history := s1.discussion_history ++
                [moderatorHistoryEntry s.current_round s.rag_critic_comment
                  s.web_critic_comment ts],
              current_round := s.current_round + 1,
              rag_critic_comment := none,
              web_critic_comment := none }
      else
        .ok s1
  else
    .ok s

/-- `ModeratorAgent.generate_final_evaluation`: always sets
`final_evaluation` to the (possibly error-tagged) synthesis record and
routes to `"save"`; it catches every LLM/parse failure, so it is total. -/
def generateFinalEvaluation (o : LlmOutcome) (s : ForumState) : ForumState :=
  { s with final_evaluation := some (generateFinalEvaluationWithLLM o),
           next_step := .str "save" }

/-! ### The critics -/

/-- The `{"error": "无法解析问题和用户回答", "message": message}` record both
critics return when the transcript cannot be parsed. -/
def parseErrorRecord (message : List Char) : Json :=
  .obj [("error", .str "无法解析问题和用户回答"), ("message", .str (String.mk message))]

/-- `RAGCriticAgent.generate_comment`, comment value only: on an
unparseable transcript, the error record (retrieval and LLM never run);
otherwise the retrieval pipeline (embedding + Milvus + PostgreSQL, whose
exceptions are not caught and propagate, abstracted as
`search : Except String Unit`) followed by the LLM comment pipeline. -/
def ragGenerateComment (message : List Char) (search : Except String Unit)
    (o : LlmOutcome) : Except String Json :=
  let (question, user_answer) := parseMessage message
  if pyFalsyStrOpt question || pyFalsyStrOpt user_answer then
    .ok (parseErrorRecord message)
  else
    match search with
    | .error e => .error e
    | .ok _ => .ok (generateCommentWithLLM o)

/-- `WebCriticAgent.generate_comment`, comment value only: the error record
on an unparseable transcript, else the LLM comment pipeline
(`_search_web` catches its own exceptions, so the web critic never raises). -/
def webGenerateComment (message : List Char) (o : LlmOutcome) : Json :=
  let (question, user_answer) := parseMessage message
  if pyFalsyStrOpt question || pyFalsyStrOpt user_answer then
    parseErrorRecord message
  else
    generateCommentWithLLM o

/-! ### The RAG critic's retrieval request (`_search_similar_cases`) -/

/-- The conjunct `f'user_id == "{user_id}"'`. -/
def userFilterCond (u : String) : String := "user_id == \"" ++ u ++ "\""

/-- The conjunct `f'difficulty == "{difficulty}"'`. -/
def difficultyFilterCond (d : String) : String := "difficulty == \"" ++ d ++ "\""

/-- The always-present conjunct `'quality_score >= 7'`. -/
def qualityFilterCond : String := "quality_score >= 7"

/-- The filter conjuncts built by `_search_similar_cases`: `user_id` when
truthy (Python `if user_id:` — present and non-empty), then `difficulty`
when truthy, then always `quality_score >= 7` (the source deliberately adds
no `company` conjunct). -/
def searchFilterConditions (user_id difficulty : Option String) : List String :=
  (match user_id with
   | some u => if u == "" then [] else [userFilterCond u]
   | none => []) ++
  (match difficulty with
   | some d => if d == "" then [] else [difficultyFilterCond d]
   | none => []) ++
  [qualityFilterCond]

/-- `' and '.join(filter_conditions) if filter_conditions else 'quality_score >= 7'`. -/
def searchFilterExpr (user_id difficulty : Option String) : String :=
  let conds := searchFilterConditions user_id difficulty
  if conds.isEmpty then "quality_score >= 7" else String.intercalate " and " conds

/-- The parameters of the `milvus.search` call issued by
`_search_similar_cases`. -/
structure SearchRequest where
  top_k : Nat
  filter_expr : String
deriving Repr

/-- The retrieval request built by `_search_similar_cases` for an agent
configured with `top_k`. -/
def buildSearchRequest (top_k : Nat) (user_id difficulty : Option String) : SearchRequest :=
  { top_k := top_k, filter_expr := searchFilterExpr user_id difficulty }

/-- The default `top_k` of `RAGCriticAgent.__init__` (and of
`ForumAgent.__init__`'s `rag_top_k`). -/
def ragDefaultTopK : Nat := 3

/-! ### The structured-output LLM call (`OpenAILLM._invoke_with_schema`) -/

/-- The retry budget of `_invoke_with_schema`. -/
def maxRetries : Nat := 3

/-- One generation attempt of `_invoke_with_schema`, as an oracle: the
parsed JSON of attempt `i` and whether it validates against the schema. -/
def invokeWithSchemaAux (attempts : Nat → Json × Bool) : Nat → Nat → Json × Nat
  | i, 0 => ((attempts i).1, i + 1)
  | i, fuel + 1 =>
    if (attempts i).2 then ((attempts i).1, i + 1)
    else invokeWithSchemaAux attempts (i + 1) fuel

/-- `OpenAILLM._invoke_with_schema`, abstracted over the per-attempt
generation oracle: returns the first schema-valid parse, or after
exhausting the retry budget the last attempt's parse, together with the
number of generations consumed. -/
def invokeWithSchema (attempts : Nat → Json × Bool) : Json × Nat :=
  invokeWithSchemaAux attempts 0 (maxRetries - 1)

/-! ### The coordinator graph (`ForumGraph/graph/graph.py` + `nodes.py`) -/

/-- The nodes of the compiled graph, plus the `END` sentinel (`done`). -/
inductive Node where
  | ragCritic : Node
  | webCritic : Node
  | moderatorDecide : Node
  | moderatorSummarize : Node
  | save : Node
  | done : Node
deriving Repr, DecidableEq

/-- `ForumNodes.rag_critic_node`: run the RAG critic on the state and store
its comment (a `.error` is an uncaught exception aborting the run). -/
def ragCriticNode (search : Except String Unit) (o : LlmOutcome)
    (s : ForumState) : Except String ForumState :=
  match ragGenerateComment s.message search o with
  | .error e => .error e
  | .ok c => .ok { s with rag_critic_comment := some c, current_speaker := .str "rag_critic" }

/-- `ForumNodes.web_critic_node`. -/
def webCriticNode (o : LlmOutcome) (s : ForumState) : ForumState :=
  { s with web_critic_comment := some (webGenerateComment s.message o),
           current_speaker := .str "web_critic" }

/-- `ForumNodes.save_discussion_node`: persist and set `next_step = "end"`
(persistence failure is an uncaught exception; only successful writes step). -/
def saveDiscussionNode (s : ForumState) : ForumState :=
  { s with next_step := .str "end" }

/-- The conditional-edge router after `moderator_decide`:
`ForumNodes.decide_next_step` maps `state["next_step"]` to a label
(defaulting to `"end"`), and the `add_conditional_edges` mapping accepts
only the labels `"rag_critic"`, `"moderator_summarize"` and `"end"` — any
other label is a graph error (`none`), aborting the run. -/
def routeAfterDecide (s : ForumState) : Option Node :=
  if jsonIsStr s.next_step "rag_critic" then some .ragCritic
  else if jsonIsStr s.next_step "web_critic" then none
  else if jsonIsStr s.next_step "moderator_decide" then none
  else if jsonIsStr s.next_step "moderator_summarize" then some .moderatorSummarize
  else if jsonIsStr s.next_step "save" then none
  else some .done

/-- One execution step of the compiled graph.  `P` constrains the decision
oracle of `moderator_decide` steps (instantiate with `fun _ _ => True` for
arbitrary LLM behaviour); the critic, summarize and persistence oracles are
unconstrained. -/
inductive GStep (P : ForumState → LlmOutcome → Prop) :
    Node × ForumState → Node × ForumState → Prop where
  | rag (s s' : ForumState) (search : Except String Unit) (o : LlmOutcome)
      (h : ragCriticNode search o s = .ok s') :
      GStep P (.ragCritic, s) (.webCritic, s')
  | web (s : ForumState) (o : LlmOutcome) :
      GStep P (.webCritic, s) (.moderatorDecide, webCriticNode o s)
  | decide (s s' : ForumState) (ts : String) (o : LlmOutcome) (n : Node)
      (hP : P s o) (h : decideNextStep ts o s = .ok s')
      (hr : routeAfterDecide s' = some n) :
      GStep P (.moderatorDecide, s) (n, s')
  | summarize (s : ForumState) (o : LlmOutcome) :
      GStep P (.moderatorSummarize, s) (.save, generateFinalEvaluation o s)
  | persist (s : ForumState) :
      GStep P (.save, s) (.done, saveDiscussionNode s)

/-- Reachability in the coordinator graph under decision-oracle constraint `P`. -/
def Reach (P : ForumState → LlmOutcome → Prop) :
    Node × ForumState → Node × ForumState → Prop :=
  Relation.ReflTransGen (GStep P)

/-- The initial `ForumState` built by `ForumAgent.run_discussion` (entry
point of the graph is the `rag_critic` node). -/
def initialState (question answer : List Char) (session_id user_id : String)
    (ctx : Option Json) (max_rounds : Nat) : ForumState :=
  { session_id := session_id
    user_id := user_id
    message := buildMessage question answer
    interview_context := ctx
    current_round := 1
    max_rounds := max_rounds
    current_speaker := .str ""
    rag_critic_comment := none
    web_critic_comment := none
    messages := []
    discussion_history := []
    final_evaluation := none
    next_step := .str "rag_critic"
    should_continue := .bool true
    metadata := none }

/-- The round-cap rule the moderator prompt instructs the LLM to follow:
never decide to continue once `current_round >= max_rounds`.  The code does
not check this; it is an assumption on the decision oracle. -/
def CapHonest (s : ForumState) (o : LlmOutcome) : Prop :=
  decisionContinues (makeDecisionWithLLM o) = true → s.current_round < s.max_rounds

/-! ### Derived helpers used in theorem statements -/

/-- Total variant of `d.get(key, default)` (agrees with the source exactly
when the decision is a dict, the only case in which the source reaches the
corresponding reads). -/
def decisionGet (d : Json) (key : String) (dflt : Json) : Json :=
  match d with
  | .obj fs => lookupD fs key dflt
  | _ => dflt

/-- Whether a stripped line carries any of the four speaker tags
recognised by `_parse_message`. -/
def taggedLine (l : List Char) : Bool :=
  startsWithL l interviewerTag || startsWithL l aiTag ||
    startsWithL l userTag || startsWithL l candidateTag

/-- Round-half-up to one decimal place (the `四舍五入到一位小数` rule of the
RAG critic's scoring rubric). -/
def roundTo1 (x : ℚ) : ℚ :=
  ((Int.floor (x * 10 + 1 / 2) : ℤ) : ℚ) / 10

/-- Whether a RAG critique record carries the four scores and its
`overall_score` satisfies the rubric's fixed linear combination
`0.4·completeness + 0.4·accuracy + 0.2·depth`, rounded to one decimal. -/
def ragOverallConsistent (j : Json) : Bool :=
  match getNumField j "completeness_score", getNumField j "accuracy_score",
      getNumField j "depth_score", getNumField j "overall_score" with
  | some c, some a, some d, some o =>
    o == roundTo1 (c * (2 / 5) + a * (2 / 5) + d * (1 / 5))
  | _, _, _, _ => false

/-! ### Concrete states and oracle responses used by counterexamples and
witnesses -/

/-- A typical (truthy) critique record. -/
def c1Comment : Json := .obj [("overall_score", .num 8)]

/-- An LLM decision that continues the discussion. -/
def c1Decision : Json :=
  .obj [("should_continue", .bool true), ("next_step", .str "rag_critic"),
        ("reason", .str "分歧较大"), ("current_speaker", .str "rag_critic")]

/-- Initial state of a discussion with `max_rounds = 1`. -/
def c1Init : ForumState := initialState ['Q'] ['A'] "s1" "u1" none 1

/-- `c1Init` after the RAG critic has commented. -/
def c1AfterRag : ForumState :=
  { c1Init with rag_critic_comment := some c1Comment, current_speaker := .str "rag_critic" }

/-- `c1AfterRag` after the Web critic has commented. -/
def c1AfterWeb : ForumState := webCriticNode (.parsed c1Comment) c1AfterRag

/-- `c1AfterWeb` after `decide_next_step` accepted the continue decision:
the round counter has left the `1 ≤ current_round ≤ max_rounds` range. -/
def c1AfterDecide : ForumState :=
  { c1AfterWeb with
    should_continue := .bool true, next_step := .str "rag_critic",
    current_speaker := .str "rag_critic",
    discussion_history :=
      [moderatorHistoryEntry 1 c1AfterWeb.rag_critic_comment c1AfterWeb.web_critic_comment "t"],
    current_round := 2, rag_critic_comment := none, web_critic_comment := none }

/-- A state whose RAG comment is the empty dict `{}`: non-null but falsy. -/
def c2State : ForumState :=
  { session_id := "s2", user_id := "u2", message := buildMessage ['Q'] ['A']
    interview_context := none, current_round := 2, max_rounds := 3
    current_speaker := .str "web_critic"
    rag_critic_comment := some (.obj [])
    web_critic_comment := some (.obj [("overall_score", .num 5)])
    messages := [], discussion_history := [], final_evaluation := none
    next_step := .str "rag_critic", should_continue := .bool true, metadata := none }

/-- A continue decision for the `c2State` counterexample. -/
def c2Decision : Json :=
  .obj [("should_continue", .bool true), ("next_step", .str "rag_critic"),
        ("reason", .str "继续"), ("current_speaker", .str "rag_critic")]

/-- A state with both critiques present (truthy), used by witnesses. -/
def c2wState : ForumState :=
  { session_id := "s2w", user_id := "u2w", message := buildMessage ['Q'] ['A']
    interview_context := none, current_round := 1, max_rounds := 3
    current_speaker := .str "web_critic"
    rag_critic_comment := some (.obj [("overall_score", .num 9)])
    web_critic_comment := some (.obj [("overall_score", .num 5)])
    messages := [], discussion_history := [], final_evaluation := none
    next_step := .str "moderator_decide", should_continue := .bool true, metadata := none }

/-- A continue decision for the `c2wState` witness. -/
def c2wDecision : Json :=
  .obj [("should_continue", .bool true), ("next_step", .str "rag_critic"),
        ("reason", .str "评分差异达到4分"), ("current_speaker", .str "rag_critic")]

/-- A state with both critiques present, used by the C3 witness. -/
def c3wState : ForumState :=
  { session_id := "s3", user_id := "u3", message := buildMessage ['Q'] ['A']
    interview_context := none, current_round := 2, max_rounds := 3
    current_speaker := .str "web_critic"
    rag_critic_comment := some (.obj [("overall_score", .num 7)])
    web_critic_comment := some (.obj [("overall_score", .num 6)])
    messages := [], discussion_history := [], final_evaluation := none
    next_step := .str "moderator_decide", should_continue := .bool true, metadata := none }

/-- A typical critique record for the C4 counterexample trace. -/
def c4Comment : Json := .obj [("overall_score", .num 6)]

/-- An LLM decision that converges but routes to `"end"` instead of
`"moderator_summarize"` (allowed by the decision schema's `next_step` enum). -/
def c4EndDecision : Json :=
  .obj [("should_continue", .bool false), ("next_step", .str "end"),
        ("reason", .str "结束"), ("current_speaker", .str "moderator")]

/-- Initial state of the C4 counterexample discussion. -/
def c4Init : ForumState := initialState ['Q'] ['A'] "s4" "u4" none 3

/-- `c4Init` after the RAG critic has commented. -/
def c4AfterRag : ForumState :=
  { c4Init with rag_critic_comment := some c4Comment, current_speaker := .str "rag_critic" }

/-- `c4AfterRag` after the Web critic has commented. -/
def c4AfterWeb : ForumState := webCriticNode (.parsed c4Comment) c4AfterRag

/-- `c4AfterWeb` after the decision routed to `"end"`: a terminal state
with `final_evaluation` still null. -/
def c4AfterDecide : ForumState :=
  { c4AfterWeb with
    should_continue := .bool false, next_step := .str "end",
    current_speaker := .str "moderator" }

/-- Concrete state for the C4 witness. -/
def c4wState : ForumState := initialState ['Q'] ['A'] "s4w" "u4w" none 2

/-- Initial state for the C5 witness trace. -/
def c5Init : ForumState := initialState ['Q'] ['A'] "s5" "u5" none 3

/-- A critique record for the C5 witness trace. -/
def c5Comment : Json := .obj [("overall_score", .num 8)]

/-- `c5Init` after the RAG critic has commented. -/
def c5AfterRag : ForumState :=
  { c5Init with rag_critic_comment := some c5Comment, current_speaker := .str "rag_critic" }

/-- An unparseable transcript (no `面试官：`/`用户：` tagged lines at all). -/
def c6Message : List Char := ['h', 'e', 'l', 'l', 'o']

/-- A state whose message is the unparseable `c6Message`. -/
def c6State : ForumState :=
  { session_id := "s6", user_id := "u6", message := c6Message
    interview_context := none, current_round := 1, max_rounds := 3
    current_speaker := .str ""
    rag_critic_comment := none, web_critic_comment := none
    messages := [], discussion_history := [], final_evaluation := none
    next_step := .str "rag_critic", should_continue := .bool true, metadata := none }

/-- A RAG critique violating the rubric's linear combination: a perfect
score triple with `overall_score = 0`. -/
def c9Bad : Json :=
  .obj [("completeness_score", .num 10), ("accuracy_score", .num 10),
        ("depth_score", .num 10), ("overall_score", .num 0),
        ("missing_points", .arr []), ("incorrect_points", .arr []),
        ("strengths", .arr []), ("suggestions", .arr [])]

/-- A RAG critique satisfying the rubric's linear combination. -/
def c9Good : Json :=
  .obj [("completeness_score", .num 8), ("accuracy_score", .num 9),
        ("depth_score", .num 6), ("overall_score", .num 8)]

/-- A critique record for the C4 witness trace. -/
def c4wComment : Json := .obj [("overall_score", .num 7)]

/-- A converge decision routing to `"moderator_summarize"`. -/
def c4wDecision : Json :=
  .obj [("should_continue", .bool false), ("next_step", .str "moderator_summarize"),
        ("reason", .str "意见一致"), ("current_speaker", .str "moderator")]

/-- `c4wState` after the RAG critic has commented. -/
def c4wAfterRag : ForumState :=
  { c4wState with rag_critic_comment := some c4wComment, current_speaker := .str "rag_critic" }

/-- `c4wAfterRag` after the Web critic has commented. -/
def c4wAfterWeb : ForumState := webCriticNode (.parsed c4wComment) c4wAfterRag

/-- `c4wAfterWeb` after the converge decision: about to run `moderator_summarize`. -/
def c4wAfterDecide : ForumState :=
  { c4wAfterWeb with
    should_continue := .bool false, next_step := .str "moderator_summarize",
    current_speaker := .str "moderator" }

/-- A structured-output attempt oracle all of whose generations fail
schema validation. -/
def c8Attempts : Nat → Json × Bool := fun _ => (.null, false)

/-- A structured-output attempt oracle whose second generation validates. -/
def c8AttemptsOk : Nat → Json × Bool := fun i =>
  if i = 1 then (.str "ok", true) else (.null, false)

/-- The per-node safety invariant of the coordinator graph: the round
counter starts at 1, `discussion_history` holds exactly the completed
rounds (`length = current_round − 1`), and `final_evaluation` is unset
before `moderator_summarize` has run and set at the `save` node. -/
def NodeInv (p : Node × ForumState) : Prop :=
  1 ≤ p.2.current_round ∧
  p.2.discussion_history.length + 1 = p.2.current_round ∧
  ((p.1 = Node.ragCritic ∨ p.1 = Node.webCritic ∨ p.1 = Node.moderatorDecide ∨
      p.1 = Node.moderatorSummarize) → p.2.final_evaluation = none) ∧
  (p.1 = Node.save → p.2.final_evaluation ≠ none)

/-! ## Helper lemmas -/

theorem interviewerTag_eq : interviewerTag = "面试官：".toList := by decide

theorem userTag_eq : userTag = "用户：".toList := by decide

theorem decisionContinues_of_fields (d : Json) (sc ns csp : Json)
    (h : decisionFields d = .ok (sc, ns, csp)) :
    decisionContinues d = (!pyFalsy sc && jsonIsStr ns "rag_critic") := by
  cases d <;> simp [decisionFields] at h
  obtain ⟨h1, h2, h3⟩ := h
  simp [decisionContinues, h1, h2]

theorem decideNextStep_fields (ts : String) (o : LlmOutcome) (s s' : ForumState)
    (h : decideNextStep ts o s = .ok s') :
    s'.max_rounds = s.max_rounds ∧ s'.message = s.message ∧
    s'.final_evaluation = s.final_evaluation ∧
    ((s'.current_round = s.current_round ∧ s'.discussion_history = s.discussion_history) ∨
      (decisionContinues (makeDecisionWithLLM o) = true ∧
        s'.current_round = s.current_round + 1 ∧
        s'.discussion_history.length = s.discussion_history.length + 1)) := by
  unfold decideNextStep at h
  split at h
  · cases h
    exact ⟨rfl, rfl, rfl, Or.inl ⟨rfl, rfl⟩⟩
  split at h
  · cases h
    exact ⟨rfl, rfl, rfl, Or.inl ⟨rfl, rfl⟩⟩
  split at h
  · rcases hd : decisionFields (makeDecisionWithLLM o) with e | ⟨sc, ns, csp⟩ <;> rw [hd] at h
    · cases h
    · simp only at h
      split at h
      · cases h
        rename_i hcont
        refine ⟨rfl, rfl, rfl, Or.inr ⟨?_, rfl, by simp⟩⟩
        rw [decisionContinues_of_fields _ _ _ _ hd]
        exact hcont
      · cases h
        exact ⟨rfl, rfl, rfl, Or.inl ⟨rfl, rfl⟩⟩
  · cases h
    exact ⟨rfl, rfl, rfl, Or.inl ⟨rfl, rfl⟩⟩

theorem ragCriticNode_fields (search : Except String Unit) (o : LlmOutcome) (s s' : ForumState)
    (h : ragCriticNode search o s = .ok s') :
    s'.current_round = s.current_round ∧ s'.max_rounds = s.max_rounds ∧
    s'.discussion_history = s.discussion_history ∧
    s'.final_evaluation = s.final_evaluation ∧ s'.message = s.message := by
  unfold ragCriticNode at h
  split at h
  · cases h
  · cases h
    exact ⟨rfl, rfl, rfl, rfl, rfl⟩

theorem routeAfterDecide_options (s : ForumState) :
    routeAfterDecide s = some Node.ragCritic ∨
    routeAfterDecide s = some Node.moderatorSummarize ∨
    routeAfterDecide s = some Node.done ∨ routeAfterDecide s = none := by
  unfold routeAfterDecide
  split
  · exact Or.inl rfl
  split
  · right; right; right; rfl
  split
  · right; right; right; rfl
  split
  · right; left; rfl
  split
  · right; right; right; rfl
  · right; right; left; rfl

theorem routeAfterDecide_ne_save (s : ForumState) (n : Node)
    (h : routeAfterDecide s = some n) : n ≠ Node.save := by
  rcases routeAfterDecide_options s with h' | h' | h' | h' <;> rw [h'] at h <;>
    first
    | (cases h; intro hc; cases hc)
    | cases h

theorem gstep_nodeInv {P : ForumState → LlmOutcome → Prop} {p q : Node × ForumState}
    (h : GStep P p q) (hp : NodeInv p) : NodeInv q := by
  cases h with
  | rag s s' search o h =>
    unfold NodeInv at hp ⊢
    dsimp only at hp ⊢
    obtain ⟨hr1, hr2, hfe, hfs⟩ := hp
    obtain ⟨e1, e2, e3, e4, e5⟩ := ragCriticNode_fields search o s s' h
    exact ⟨by omega, by rw [e3, e1]; exact hr2, fun _ => by rw [e4]; exact hfe (by simp),
      by simp⟩
  | web s o =>
    unfold NodeInv at hp ⊢
    dsimp only at hp ⊢
    obtain ⟨hr1, hr2, hfe, hfs⟩ := hp
    exact ⟨hr1, hr2, fun _ => hfe (by simp), by simp⟩
  | decide s s' ts o n hP h hr =>
    unfold NodeInv at hp ⊢
    dsimp only at hp ⊢
    obtain ⟨hr1, hr2, hfe, hfs⟩ := hp
    obtain ⟨e1, e2, e3, e4⟩ := decideNextStep_fields ts o s s' h
    have hfe' : s'.final_evaluation = none := by rw [e3]; exact hfe (by simp)
    have hnsave := routeAfterDecide_ne_save s' n hr
    rcases e4 with ⟨e5, e6⟩ | ⟨_, e5, e6⟩
    · exact ⟨by omega, by rw [e6, e5]; exact hr2, fun _ => hfe', fun hn => absurd hn hnsave⟩
    · exact ⟨by omega, by omega, fun _ => hfe', fun hn => absurd hn hnsave⟩
  | summarize s o =>
    unfold NodeInv at hp ⊢
    dsimp only at hp ⊢
    obtain ⟨hr1, hr2, hfe, hfs⟩ := hp
    exact ⟨hr1, hr2, by simp, fun _ => by simp [generateFinalEvaluation]⟩
  | persist s =>
    unfold NodeInv at hp ⊢
    dsimp only at hp ⊢
    obtain ⟨hr1, hr2, hfe, hfs⟩ := hp
    exact ⟨hr1, hr2, by simp [saveDiscussionNode], by simp⟩

theorem reach_nodeInv {P : ForumState → LlmOutcome → Prop} {p q : Node × ForumState}
    (h : Reach P p q) (hp : NodeInv p) : NodeInv q := by
  induction h with
  | refl => exact hp
  | tail _ hstep ih => exact gstep_nodeInv hstep ih

theorem gstep_capMax {p q : Node × ForumState} (h : GStep CapHonest p q)
    (hc : p.2.current_round ≤ p.2.max_rounds) :
    q.2.current_round ≤ q.2.max_rounds ∧ q.2.max_rounds = p.2.max_rounds := by
  cases h with
  | rag s s' search o h =>
    obtain ⟨e1, e2, _, _, _⟩ := ragCriticNode_fields search o s s' h
    dsimp only at hc ⊢
    exact ⟨by omega, e2⟩
  | web s o =>
    dsimp only [webCriticNode] at hc ⊢
    exact ⟨hc, rfl⟩
  | decide s s' ts o n hP h hr =>
    obtain ⟨e1, _, _, e4⟩ := decideNextStep_fields ts o s s' h
    dsimp only at hc ⊢
    rcases e4 with ⟨e5, _⟩ | ⟨hcont, e5, _⟩
    · exact ⟨by omega, e1⟩
    · have hlt := hP hcont
      exact ⟨by omega, e1⟩
  | summarize s o =>
    dsimp only [generateFinalEvaluation] at hc ⊢
    exact ⟨hc, rfl⟩
  | persist s =>
    dsimp only [saveDiscussionNode] at hc ⊢
    exact ⟨hc, rfl⟩

theorem reach_capMax {p q : Node × ForumState} (h : Reach CapHonest p q)
    (hc : p.2.current_round ≤ p.2.max_rounds) :
    q.2.current_round ≤ q.2.max_rounds ∧ q.2.max_rounds = p.2.max_rounds := by
  induction h with
  | refl => exact ⟨hc, rfl⟩
  | tail _ hstep ih =>
    obtain ⟨ih1, ih2⟩ := ih
    obtain ⟨h1, h2⟩ := gstep_capMax hstep ih1
    exact ⟨h1, h2.trans ih2⟩

theorem initialState_nodeInv (q a : List Char) (sid uid : String) (ctx : Option Json)
    (maxR : Nat) : NodeInv (Node.ragCritic, initialState q a sid uid ctx maxR) :=
  ⟨by simp [initialState], by simp [initialState], fun _ => by simp [initialState],
    fun hc => nomatch hc⟩

/-! ## Claim C1 -/

/-- C1, counterexample: the continue branch of
`ModeratorAgent.decide_next_step` has no `max_rounds` guard.  From the
`run_discussion` initial state with `max_rounds = 1`, after the two critics
comment, an LLM decision `{should_continue: true, next_step: "rag_critic"}`
is accepted as-is, yielding a reachable state with `current_round = 2 >
max_rounds = 1` — so the claimed invariant, and the claim that the
increment is capped "regardless of what decision the LLM returns", fail. -/
theorem c1_counterexample :
    Reach (fun _ _ => True) (Node.ragCritic, c1Init) (Node.ragCritic, c1AfterDecide) ∧
    c1AfterDecide.max_rounds = 1 ∧ c1AfterDecide.current_round = 2 := by
  refine ⟨?_, rfl, rfl⟩
  have h1 : ragCriticNode (.ok ()) (.parsed c1Comment) c1Init = .ok c1AfterRag := rfl
  have h3 : decideNextStep "t" (.parsed c1Decision) c1AfterWeb = .ok c1AfterDecide := rfl
  have h4 : routeAfterDecide c1AfterDecide = some .ragCritic := rfl
  exact Relation.ReflTransGen.head (GStep.rag _ _ _ _ h1)
    (Relation.ReflTransGen.head (GStep.web c1AfterRag (.parsed c1Comment))
      (Relation.ReflTransGen.single (GStep.decide _ _ "t" (.parsed c1Decision) _ trivial h3 h4)))

/-- C1, amended: the bound `1 ≤ current_round ≤ max_rounds` holds for every
reachable state of every discussion started by `run_discussion`, and at
most `max_rounds − 1` continue cycles complete (`discussion_history.length
+ 1 ≤ max_rounds`), provided the decision LLM obeys the round-cap rule the
moderator prompt dictates (`CapHonest`: never continue once `current_round
≥ max_rounds`).  The code itself does not enforce the cap. -/
theorem c1_round_cap_amended (q a : List Char) (sid uid : String) (ctx : Option Json)
    (maxR : Nat) (hmax : 1 ≤ maxR) (n : Node) (s : ForumState)
    (h : Reach CapHonest (Node.ragCritic, initialState q a sid uid ctx maxR) (n, s)) :
    1 ≤ s.current_round ∧ s.current_round ≤ s.max_rounds ∧ s.max_rounds = maxR ∧
    s.discussion_history.length + 1 ≤ maxR := by
  have hnode := reach_nodeInv h (initialState_nodeInv q a sid uid ctx maxR)
  have hcap := reach_capMax h (by simp [initialState]; omega)
  obtain ⟨h1, h2, _, _⟩ := hnode
  obtain ⟨h3, h4⟩ := hcap
  dsimp only at h1 h2 h3 h4
  simp only [initialState] at h4
  exact ⟨h1, h3, h4, by omega⟩

/-- C1 witness: the amended theorem applied to the concrete one-step trace
`rag_critic` → `web_critic` of a `max_rounds = 1` discussion. -/
theorem c1_round_cap_amended_witness :
    1 ≤ c1AfterRag.current_round ∧ c1AfterRag.current_round ≤ c1AfterRag.max_rounds ∧
    c1AfterRag.max_rounds = 1 ∧ c1AfterRag.discussion_history.length + 1 ≤ 1 :=
  c1_round_cap_amended ['Q'] ['A'] "s1" "u1" none 1 (by decide) Node.webCritic c1AfterRag
    (Relation.ReflTransGen.single (GStep.rag _ _ (.ok ()) (.parsed c1Comment) rfl))

/-! ## Claim C5 -/

/-- C5: in every discussion started by `run_discussion` (initial state:
`current_round = 1`, empty `discussion_history`), every reachable state of
the coordinator graph — in particular the state `moderator_summarize` runs
on — satisfies `discussion_history.length = current_round − 1`: only the
continue branch of `decide_next_step` grows the history, appending exactly
one entry per round increment. -/
theorem c5_history_length_eq_round (q a : List Char) (sid uid : String) (ctx : Option Json)
    (maxR : Nat) (n : Node) (s : ForumState)
    (h : Reach (fun _ _ => True) (Node.ragCritic, initialState q a sid uid ctx maxR) (n, s)) :
    s.discussion_history.length + 1 = s.current_round :=
  (reach_nodeInv h (initialState_nodeInv q a sid uid ctx maxR)).2.1

/-- C5 witness: the theorem applied to the concrete one-step trace
`rag_critic` → `web_critic`. -/
theorem c5_history_length_eq_round_witness :
    c5AfterRag.discussion_history.length + 1 = c5AfterRag.current_round :=
  c5_history_length_eq_round ['Q'] ['A'] "s5" "u5" none 3 Node.webCritic c5AfterRag
    (Relation.ReflTransGen.single (GStep.rag _ _ (.ok ()) (.parsed c5Comment) rfl))

/-! ## Claim C2 -/

/-- C2, counterexample: `decide_next_step` tests the comments with Python
truthiness, not nullness.  With `rag_critic_comment = {}` (non-null but
falsy) and a truthy web comment, a continue decision changes nothing: the
state is returned unchanged — no snapshot is appended, `current_round`
stays 2, and neither comment field is cleared, contradicting the claim for
non-null comments. -/
theorem c2_counterexample :
    c2State.rag_critic_comment ≠ none ∧ c2State.web_critic_comment ≠ none ∧
    decisionContinues c2Decision = true ∧
    decideNextStep "t" (.parsed c2Decision) c2State = .ok c2State ∧
    c2State.discussion_history = [] ∧ c2State.current_round = 2 := by
  refine ⟨by simp [c2State], by simp [c2State], rfl, rfl, rfl, rfl⟩

/-- C2, amended: replace "non-null" by "truthy" (Python truthiness, i.e. a
non-empty record).  Whenever both comments are truthy: if the decision is
to continue (`should_continue` truthy and `next_step = "rag_critic"`),
`decide_next_step` appends exactly one `{round, rag_comment, web_comment,
timestamp}` snapshot, increments `current_round` by exactly 1 and nulls
both comment fields; otherwise it changes none of those three fields (it
only stores the decision's `should_continue`/`next_step`/`current_speaker`). -/
theorem c2_truthiness_amended (ts : String) (o : LlmOutcome) (s : ForumState)
    (h1 : pyFalsyOpt s.rag_critic_comment = false)
    (h2 : pyFalsyOpt s.web_critic_comment = false)
    (hobj : jsonIsObj (makeDecisionWithLLM o) = true) :
    (decisionContinues (makeDecisionWithLLM o) = true →
      decideNextStep ts o s =
        .ok { s with
              should_continue :=
                decisionGet (makeDecisionWithLLM o) "should_continue" (.bool false),
              next_step := decisionGet (makeDecisionWithLLM o) "next_step" (.str "end"),
              current_speaker :=
                decisionGet (makeDecisionWithLLM o) "current_speaker" (.str "moderator"),
              discussion_history := s.discussion_history ++
                [moderatorHistoryEntry s.current_round s.rag_critic_comment
                  s.web_critic_comment ts],
              current_round := s.current_round + 1,
              rag_critic_comment := none, web_critic_comment := none }) ∧
    (decisionContinues (makeDecisionWithLLM o) = false →
      decideNextStep ts o s =
        .ok { s with
              should_continue :=
                decisionGet (makeDecisionWithLLM o) "should_continue" (.bool false),
              next_step := decisionGet (makeDecisionWithLLM o) "next_step" (.str "end"),
              current_speaker :=
                decisionGet (makeDecisionWithLLM o) "current_speaker" (.str "moderator") }) := by
  rcases hD : makeDecisionWithLLM o with j | b | q' | st | xs | fs
  · rw [hD] at hobj; simp [jsonIsObj] at hobj
  · rw [hD] at hobj; simp [jsonIsObj] at hobj
  · rw [hD] at hobj; simp [jsonIsObj] at hobj
  · rw [hD] at hobj; simp [jsonIsObj] at hobj
  · rw [hD] at hobj; simp [jsonIsObj] at hobj
  · refine ⟨fun hcont => ?_, fun hcont => ?_⟩ <;>
      simp only [decisionContinues] at hcont <;>
      simp [decideNextStep, h1, h2, hD, decisionFields, decisionGet, hcont]

/-- C2 witness: the amended theorem instantiated at a concrete state with
two truthy critiques and a concrete continue decision. -/
theorem c2_truthiness_amended_witness :
    decideNextStep "t" (.parsed c2wDecision) c2wState =
      .ok { c2wState with
            should_continue :=
              decisionGet (makeDecisionWithLLM (.parsed c2wDecision)) "should_continue"
                (.bool false),
            next_step :=
              decisionGet (makeDecisionWithLLM (.parsed c2wDecision)) "next_step" (.str "end"),
            current_speaker :=
              decisionGet (makeDecisionWithLLM (.parsed c2wDecision)) "current_speaker"
                (.str "moderator"),
            discussion_history := c2wState.discussion_history ++
              [moderatorHistoryEntry c2wState.current_round c2wState.rag_critic_comment
                c2wState.web_critic_comment "t"],
            current_round := c2wState.current_round + 1,
            rag_critic_comment := none, web_critic_comment := none } :=
  (c2_truthiness_amended "t" (.parsed c2wDecision) c2wState rfl rfl rfl).1 rfl

/-! ## Claim C3 -/

/-- C3: if the LLM call or the JSON parsing inside the moderator's decision
step fails (any exception), `decide_next_step` does not raise; it stores
the default decision `should_continue = false`, `next_step =
"moderator_summarize"`, and the conditional-edge router then sends the
discussion to the `moderator_summarize` node. -/
theorem c3_decision_failure_defaults (ts : String) (o : LlmOutcome) (s : ForumState)
    (h1 : pyFalsyOpt s.rag_critic_comment = false)
    (h2 : pyFalsyOpt s.web_critic_comment = false)
    (hf : llmFailed o = true) :
    decideNextStep ts o s =
      .ok { s with should_continue := .bool false,
                   next_step := .str "moderator_summarize",
                   current_speaker := .str "moderator" } ∧
    routeAfterDecide { s with should_continue := .bool false,
                              next_step := .str "moderator_summarize",
                              current_speaker := .str "moderator" } =
      some Node.moderatorSummarize := by
  constructor
  · cases o with
    | parsed j => simp [llmFailed] at hf
    | decodeError raw e =>
      simp [decideNextStep, h1, h2, makeDecisionWithLLM, decisionFields, lookupD, List.lookup,
        pyFalsy, jsonIsStr]
    | failure e =>
      simp [decideNextStep, h1, h2, makeDecisionWithLLM, decisionFields, lookupD, List.lookup,
        pyFalsy, jsonIsStr]
  · simp [routeAfterDecide, jsonIsStr]

/-- C3 witness: the theorem applied to a concrete state with two truthy
critiques and a concrete LLM failure. -/
theorem c3_decision_failure_defaults_witness :
    decideNextStep "t" (.failure "LLM调用超时") c3wState =
      .ok { c3wState with should_continue := .bool false,
                          next_step := .str "moderator_summarize",
                          current_speaker := .str "moderator" } ∧
    routeAfterDecide { c3wState with should_continue := .bool false,
                                     next_step := .str "moderator_summarize",
                                     current_speaker := .str "moderator" } =
      some Node.moderatorSummarize :=
  c3_decision_failure_defaults "t" (.failure "LLM调用超时") c3wState rfl rfl rfl

/-! ## Claim C4 -/

/-- C4, counterexample: the decision schema allows `next_step = "end"`, and
the conditional-edge router maps that label straight to `END`.  From a
`run_discussion` start, after both critics comment, the decision
`{should_continue: false, next_step: "end"}` reaches the terminal state
with `final_evaluation` still null — so "final_evaluation is non-null
whenever the discussion reaches its terminal save/end state" fails. -/
theorem c4_counterexample :
    Reach (fun _ _ => True) (Node.ragCritic, c4Init) (Node.done, c4AfterDecide) ∧
    c4AfterDecide.final_evaluation = none := by
  refine ⟨?_, rfl⟩
  have h1 : ragCriticNode (.ok ()) (.parsed c4Comment) c4Init = .ok c4AfterRag := rfl
  have h3 : decideNextStep "t" (.parsed c4EndDecision) c4AfterWeb = .ok c4AfterDecide := rfl
  have h4 : routeAfterDecide c4AfterDecide = some .done := rfl
  exact Relation.ReflTransGen.head (GStep.rag _ _ _ _ h1)
    (Relation.ReflTransGen.head (GStep.web c4AfterRag (.parsed c4Comment))
      (Relation.ReflTransGen.single
        (GStep.decide _ _ "t" (.parsed c4EndDecision) _ trivial h3 h4)))

/-- C4, amended: `generate_final_evaluation` never raises — for every input
state it sets `final_evaluation` to a non-null record (error-tagged when
the LLM call or JSON parse fails) and sets `next_step = "save"`; and in
every discussion `final_evaluation` is null until `moderator_summarize`
runs and non-null at the `save` node (so it is set exactly once, by the
summarize step).  However a decision of `next_step = "end"` can reach the
terminal `end` state directly with `final_evaluation` null (see the
counterexample), so non-nullness at the terminal state holds only for the
save path. -/
theorem c4_final_evaluation_amended :
    (∀ (o : LlmOutcome) (s : ForumState),
      (generateFinalEvaluation o s).final_evaluation =
        some (generateFinalEvaluationWithLLM o) ∧
      (generateFinalEvaluation o s).next_step = .str "save" ∧
      (llmFailed o = true → jsonHasKey (generateFinalEvaluationWithLLM o) "error" = true)) ∧
    (∀ (q a : List Char) (sid uid : String) (ctx : Option Json) (maxR : Nat)
      (n : Node) (s : ForumState),
      Reach (fun _ _ => True) (Node.ragCritic, initialState q a sid uid ctx maxR) (n, s) →
      (n = Node.save → s.final_evaluation ≠ none) ∧
      (n = Node.moderatorSummarize → s.final_evaluation = none)) := by
  constructor
  · intro o s
    refine ⟨rfl, rfl, fun hf => ?_⟩
    cases o with
    | parsed j => simp [llmFailed] at hf
    | decodeError raw e => simp [generateFinalEvaluationWithLLM, jsonHasKey, List.lookup]
    | failure e => simp [generateFinalEvaluationWithLLM, jsonHasKey, List.lookup]
  · intro q a sid uid ctx maxR n s h
    have hnode := reach_nodeInv h (initialState_nodeInv q a sid uid ctx maxR)
    obtain ⟨_, _, hfe, hfs⟩ := hnode
    exact ⟨fun hn => hfs hn, fun hn => hfe (by simp [hn])⟩

/-- C4 witness: part one applied to a concrete failure outcome, and part
two applied to a concrete trace that reaches `moderator_summarize` (null
evaluation) and then `save` (non-null evaluation). -/
theorem c4_final_evaluation_amended_witness :
    (generateFinalEvaluation (.failure "网络错误") c4wState).final_evaluation =
      some (generateFinalEvaluationWithLLM (.failure "网络错误")) ∧
    jsonHasKey (generateFinalEvaluationWithLLM (.failure "网络错误")) "error" = true ∧
    c4wAfterDecide.final_evaluation = none ∧
    (generateFinalEvaluation (.failure "网络错误") c4wAfterDecide).final_evaluation ≠ none := by
  have h := c4_final_evaluation_amended
  have h1 : ragCriticNode (.ok ()) (.parsed c4wComment) c4wState = .ok c4wAfterRag := rfl
  have h3 : decideNextStep "t" (.parsed c4wDecision) c4wAfterWeb = .ok c4wAfterDecide := rfl
  have h4 : routeAfterDecide c4wAfterDecide = some .moderatorSummarize := rfl
  have hchain :
      Reach (fun _ _ => True) (Node.ragCritic, initialState ['Q'] ['A'] "s4w" "u4w" none 2)
        (Node.moderatorSummarize, c4wAfterDecide) :=
    Relation.ReflTransGen.head (GStep.rag _ _ _ _ h1)
      (Relation.ReflTransGen.head (GStep.web c4wAfterRag (.parsed c4wComment))
        (Relation.ReflTransGen.single
          (GStep.decide _ _ "t" (.parsed c4wDecision) _ trivial h3 h4)))
  have hchain2 :
      Reach (fun _ _ => True) (Node.ragCritic, initialState ['Q'] ['A'] "s4w" "u4w" none 2)
        (Node.save, generateFinalEvaluation (.failure "网络错误") c4wAfterDecide) :=
    Relation.ReflTransGen.tail hchain (GStep.summarize c4wAfterDecide (.failure "网络错误"))
  refine ⟨(h.1 _ _).1, (h.1 (.failure "网络错误") c4wState).2.2 rfl, ?_, ?_⟩
  · exact (h.2 ['Q'] ['A'] "s4w" "u4w" none 2 Node.moderatorSummarize c4wAfterDecide hchain).2
      rfl
  · exact (h.2 ['Q'] ['A'] "s4w" "u4w" none 2 Node.save _ hchain2).1 rfl

/-! ## Claim C7 -/

theorem userFilterCond_ne_quality (u : String) : userFilterCond u ≠ qualityFilterCond := by
  intro h
  have hd := congrArg String.toList h
  simp [userFilterCond, qualityFilterCond] at hd

theorem difficultyFilterCond_ne_quality (d : String) :
    difficultyFilterCond d ≠ qualityFilterCond := by
  intro h
  have hd := congrArg String.toList h
  simp [difficultyFilterCond, qualityFilterCond] at hd

theorem userFilterCond_ne_difficulty (u d : String) :
    userFilterCond u ≠ difficultyFilterCond d := by
  intro h
  have hd := congrArg String.toList h
  simp [userFilterCond, difficultyFilterCond] at hd

/-- C7: every retrieval request of `_search_similar_cases` asks for exactly
`top_k` results (default 3), and its filter conjuncts are exactly: always
`quality_score >= 7`; `user_id == <user_id>` exactly when a (non-empty)
user id is provided; `difficulty == <difficulty>` exactly when a
(non-empty) difficulty is provided; nothing else — in particular never a
company conjunct. -/
theorem c7_search_request (topK : Nat) (uid diff : Option String) :
    (buildSearchRequest topK uid diff).top_k = topK ∧
    ragDefaultTopK = 3 ∧
    qualityFilterCond ∈ searchFilterConditions uid diff ∧
    (∀ u, uid = some u → u ≠ "" → userFilterCond u ∈ searchFilterConditions uid diff) ∧
    (∀ d, diff = some d → d ≠ "" → difficultyFilterCond d ∈ searchFilterConditions uid diff) ∧
    (∀ c, c ∈ searchFilterConditions uid diff →
      c = qualityFilterCond ∨ (∃ u, uid = some u ∧ u ≠ "" ∧ c = userFilterCond u) ∨
      (∃ d, diff = some d ∧ d ≠ "" ∧ c = difficultyFilterCond d)) ∧
    (uid = none → ∀ u, userFilterCond u ∉ searchFilterConditions uid diff) ∧
    (diff = none → ∀ d, difficultyFilterCond d ∉ searchFilterConditions uid diff) := by
  rcases uid with _ | u <;> rcases diff with _ | d
  · refine ⟨rfl, rfl, by simp [searchFilterConditions], by simp, by simp, ?_, ?_, ?_⟩
    · intro c hc
      simp [searchFilterConditions] at hc
      exact Or.inl hc
    · intro _ u
      simp [searchFilterConditions, userFilterCond_ne_quality u]
    · intro _ d
      simp [searchFilterConditions, difficultyFilterCond_ne_quality d]
  · by_cases hd : d = "" <;>
      refine ⟨rfl, rfl, by simp [searchFilterConditions, hd], by simp, ?_, ?_, ?_, by simp⟩
    · intro d' hd' hne
      cases hd'
      exact absurd hd hne
    · intro c hc
      simp [searchFilterConditions, hd] at hc
      exact Or.inl hc
    · intro _ u
      simp [searchFilterConditions, hd, userFilterCond_ne_quality u]
    · intro d' hd' hne
      cases hd'
      simp [searchFilterConditions, hd]
    · intro c hc
      simp [searchFilterConditions, hd] at hc
      rcases hc with hc | hc
      · exact Or.inr (Or.inr ⟨d, rfl, hd, hc⟩)
      · exact Or.inl hc
    · intro _ u
      simp [searchFilterConditions, hd, userFilterCond_ne_quality u,
        userFilterCond_ne_difficulty u d]
  · by_cases hu : u = "" <;>
      refine ⟨rfl, rfl, by simp [searchFilterConditions, hu], ?_, by simp, ?_, by simp, ?_⟩
    · intro u' hu' hne
      cases hu'
      exact absurd hu hne
    · intro c hc
      simp [searchFilterConditions, hu] at hc
      exact Or.inl hc
    · intro _ d
      simp [searchFilterConditions, hu, difficultyFilterCond_ne_quality d]
    · intro u' hu' hne
      cases hu'
      simp [searchFilterConditions, hu]
    · intro c hc
      simp [searchFilterConditions, hu] at hc
      rcases hc with hc | hc
      · exact Or.inr (Or.inl ⟨u, rfl, hu, hc⟩)
      · exact Or.inl hc
    · intro _ d
      simp [searchFilterConditions, hu, difficultyFilterCond_ne_quality d]
      intro h
      exact absurd h.symm (userFilterCond_ne_difficulty u d)
  · by_cases hu : u = "" <;> by_cases hd : d = "" <;>
      refine ⟨rfl, rfl, by simp [searchFilterConditions, hu, hd], ?_, ?_, ?_, by simp, by simp⟩
    · intro u' hu' hne
      cases hu'
      exact absurd hu hne
    · intro d' hd' hne
      cases hd'
      exact absurd hd hne
    · intro c hc
      simp [searchFilterConditions, hu, hd] at hc
      exact Or.inl hc
    · intro u' hu' hne
      cases hu'
      exact absurd hu hne
    · intro d' hd' hne
      cases hd'
      simp [searchFilterConditions, hu, hd]
    · intro c hc
      simp [searchFilterConditions, hu, hd] at hc
      rcases hc with hc | hc
      · exact Or.inr (Or.inr ⟨d, rfl, hd, hc⟩)
      · exact Or.inl hc
    · intro u' hu' hne
      cases hu'
      simp [searchFilterConditions, hu, hd]
    · intro d' hd' hne
      cases hd'
      exact absurd hd hne
    · intro c hc
      simp [searchFilterConditions, hu, hd] at hc
      rcases hc with hc | hc
      · exact Or.inr (Or.inl ⟨u, rfl, hu, hc⟩)
      · exact Or.inl hc
    · intro u' hu' hne
      cases hu'
      simp [searchFilterConditions, hu, hd]
    · intro d' hd' hne
      cases hd'
      simp [searchFilterConditions, hu, hd]
    · intro c hc
      simp [searchFilterConditions, hu, hd] at hc
      rcases hc with hc | hc | hc
      · exact Or.inr (Or.inl ⟨u, rfl, hu, hc⟩)
      · exact Or.inr (Or.inr ⟨d, rfl, hd, hc⟩)
      · exact Or.inl hc

/-- C7 witness: the theorem at `top_k = 3`, a provided user id and a
provided difficulty, and at a request with neither provided. -/
theorem c7_search_request_witness :
    (buildSearchRequest 3 (some "user_abc") (some "中等")).top_k = 3 ∧
    userFilterCond "user_abc" ∈ searchFilterConditions (some "user_abc") (some "中等") ∧
    difficultyFilterCond "中等" ∈ searchFilterConditions (some "user_abc") (some "中等") ∧
    qualityFilterCond ∈ searchFilterConditions (some "user_abc") (some "中等") ∧
    userFilterCond "x" ∉ searchFilterConditions none none := by
  obtain ⟨h1, _, h3, h4, h5, _, _, _⟩ := c7_search_request 3 (some "user_abc") (some "中等")
  obtain ⟨_, _, _, _, _, _, h7, _⟩ := c7_search_request 3 none none
  exact ⟨h1, h4 "user_abc" rfl (by decide), h5 "中等" rfl (by decide), h3, h7 rfl "x"⟩

/-! ## Claim C8 -/

theorem invokeWithSchema_cases (attempts : Nat → Json × Bool) :
    invokeWithSchema attempts =
      (if (attempts 0).2 then ((attempts 0).1, 1)
       else if (attempts 1).2 then ((attempts 1).1, 2)
       else ((attempts 2).1, 3)) := rfl

/-- C8: `_invoke_with_schema` consumes at most 3 generations; it returns
the first parsed result that validates against the schema, and when all 3
attempts fail validation it returns the last attempt's parsed result (no
exception is raised on validation failure — the model is a total function). -/
theorem c8_invoke_with_schema (attempts : Nat → Json × Bool) :
    (invokeWithSchema attempts).2 ≤ 3 ∧
    ((∀ i, i < 3 → (attempts i).2 = false) →
      invokeWithSchema attempts = ((attempts 2).1, 3)) ∧
    (∀ i, i < 3 → (attempts i).2 = true → (∀ j, j < i → (attempts j).2 = false) →
      invokeWithSchema attempts = ((attempts i).1, i + 1)) := by
  rw [invokeWithSchema_cases]
  refine ⟨?_, ?_, ?_⟩
  · cases h0 : (attempts 0).2 <;> cases h1 : (attempts 1).2 <;> simp
  · intro hall
    simp [hall 0 (by omega), hall 1 (by omega)]
  · intro i hi hv hprev
    interval_cases i
    · simp [hv]
    · simp [hprev 0 (by omega), hv]
    · simp [hprev 0 (by omega), hprev 1 (by omega), hv]

/-- C8 witness: the theorem at an oracle whose attempts all fail validation
(the third attempt's parse is returned) and at one whose second attempt
validates (returned after two generations). -/
theorem c8_invoke_with_schema_witness :
    invokeWithSchema c8Attempts = ((c8Attempts 2).1, 3) ∧
    invokeWithSchema c8AttemptsOk = ((c8AttemptsOk 1).1, 2) := by
  constructor
  · exact (c8_invoke_with_schema c8Attempts).2.1 (by decide)
  · exact (c8_invoke_with_schema c8AttemptsOk).2.2 1 (by decide) (by decide) (by decide)

/-! ## String lemmas for the transcript round trip -/

theorem stripRight_eq_nil_iff (l : List Char) :
    stripRight l = [] ↔ ∀ c ∈ l, pyIsSpace c := by
  unfold stripRight
  rw [List.reverse_eq_nil_iff, List.dropWhile_eq_nil_iff]
  constructor <;> intro h c hc <;> exact h c (by simpa using hc)

theorem stripLeft_eq_nil_iff (l : List Char) :
    stripLeft l = [] ↔ ∀ c ∈ l, pyIsSpace c :=
  List.dropWhile_eq_nil_iff

theorem stripRight_ne_nil_of_pyStrip (l : List Char) (h : pyStrip l ≠ []) :
    stripRight l ≠ [] := by
  intro hr
  apply h
  have hall := (stripRight_eq_nil_iff l).mp hr
  have hleft : stripLeft l = [] := (stripLeft_eq_nil_iff l).mpr hall
  unfold pyStrip
  rw [hleft]
  rfl

theorem stripRight_append (l1 l2 : List Char) (h : stripRight l2 ≠ []) :
    stripRight (l1 ++ l2) = l1 ++ stripRight l2 := by
  unfold stripRight at h ⊢
  rw [List.reverse_append, List.dropWhile_append]
  have h2 : ¬ (List.dropWhile pyIsSpace l2.reverse).isEmpty = true := by
    intro hemp
    rw [List.isEmpty_iff] at hemp
    rw [hemp] at h
    exact h rfl
  rw [if_neg h2, List.reverse_append, List.reverse_reverse]

theorem mem_of_mem_stripRight (c : Char) (l : List Char) (h : c ∈ stripRight l) : c ∈ l := by
  unfold stripRight at h
  rw [List.mem_reverse] at h
  rw [← List.mem_reverse]
  exact (List.dropWhile_sublist pyIsSpace).subset h

theorem stripRight_cons (x : Char) (xs : List Char) :
    stripRight (x :: xs) =
      if stripRight xs = [] then (if pyIsSpace x then [] else [x])
      else x :: stripRight xs := by
  by_cases hxs : stripRight xs = []
  · rw [if_pos hxs]
    unfold stripRight at hxs ⊢
    rw [List.reverse_eq_nil_iff] at hxs
    rw [show (x :: xs).reverse = xs.reverse ++ [x] from by simp]
    rw [List.dropWhile_append, if_pos (by rw [List.isEmpty_iff]; exact hxs)]
    by_cases hx : pyIsSpace x
    · rw [if_pos hx]
      simp [List.dropWhile, hx]
    · rw [if_neg hx]
      simp [List.dropWhile, hx]
  · rw [if_neg hxs]
    exact stripRight_append [x] xs hxs

theorem stripLeft_cons (x : Char) (xs : List Char) :
    stripLeft (x :: xs) = if pyIsSpace x then stripLeft xs else x :: xs := by
  by_cases h : pyIsSpace x <;> simp [stripLeft, List.dropWhile_cons, h]

theorem stripRight_idem (l : List Char) : stripRight (stripRight l) = stripRight l := by
  unfold stripRight
  rw [List.reverse_reverse, List.dropWhile_idempotent]

theorem strip_comm (l : List Char) : stripLeft (stripRight l) = stripRight (stripLeft l) := by
  induction l with
  | nil => rfl
  | cons x xs ih =>
    by_cases hx : pyIsSpace x
    · rw [stripLeft_cons, if_pos hx, stripRight_cons]
      by_cases hxs : stripRight xs = []
      · rw [if_pos hxs, if_pos hx, ← ih, hxs]
      · rw [if_neg hxs, stripLeft_cons, if_pos hx, ih]
    · rw [stripLeft_cons, if_neg hx, stripRight_cons]
      by_cases hxs : stripRight xs = []
      · rw [if_pos hxs, if_neg hx, stripLeft_cons, if_neg hx]
      · rw [if_neg hxs, stripLeft_cons, if_neg hx]

theorem pyStrip_stripRight (l : List Char) : pyStrip (stripRight l) = pyStrip l := by
  unfold pyStrip
  rw [strip_comm, stripRight_idem]

theorem splitOnChar_of_not_mem (c : Char) (l : List Char) (h : c ∉ l) :
    splitOnChar c l = [l] := by
  induction l with
  | nil => rfl
  | cons x xs ih =>
    have hx : ¬ (x == c) = true := by
      simp only [beq_iff_eq]
      intro hc
      exact h (hc ▸ List.mem_cons_self x xs)
    have hxs : c ∉ xs := fun hc => h (List.mem_cons_of_mem x hc)
    rw [splitOnChar, if_neg hx, ih hxs]

theorem splitOnChar_append (c : Char) (l1 l2 : List Char) (h : c ∉ l1) :
    splitOnChar c (l1 ++ c :: l2) = l1 :: splitOnChar c l2 := by
  induction l1 with
  | nil =>
    simp only [List.nil_append]
    rw [splitOnChar, if_pos (by simp)]
  | cons x xs ih =>
    have hx : ¬ (x == c) = true := by
      simp only [beq_iff_eq]
      intro hc
      exact h (hc ▸ List.mem_cons_self x xs)
    have hxs : c ∉ xs := fun hc => h (List.mem_cons_of_mem x hc)
    rw [List.cons_append, splitOnChar, if_neg hx, ih hxs]

theorem startsWithL_append_self (p l : List Char) : startsWithL (p ++ l) p = true := by
  induction p with
  | nil =>
    cases l <;> rfl
  | cons x xs ih => simp [startsWithL, ih]

theorem afterFirstColon_interviewer (x : List Char) :
    afterFirstColon (interviewerTag ++ x) = x := rfl

theorem afterFirstColon_user (x : List Char) :
    afterFirstColon (userTag ++ x) = x := rfl

theorem startsWithL_user_not_interviewer (x : List Char) :
    startsWithL (userTag ++ x) interviewerTag = false := rfl

theorem startsWithL_user_not_ai (x : List Char) :
    startsWithL (userTag ++ x) aiTag = false := rfl

theorem stripLeft_interviewer (x : List Char) :
    stripLeft (interviewerTag ++ x) = interviewerTag ++ x := by
  rw [show interviewerTag ++ x = '面' :: ('试' :: '官' :: '：' :: x) from rfl]
  exact List.dropWhile_cons_of_neg (by decide)

theorem stripLeft_user (x : List Char) :
    stripLeft (userTag ++ x) = userTag ++ x := by
  rw [show userTag ++ x = '用' :: ('户' :: '：' :: x) from rfl]
  exact List.dropWhile_cons_of_neg (by decide)

theorem pyStrip_interviewer_line (q : List Char) (hq : stripRight q ≠ []) :
    pyStrip (interviewerTag ++ q) = interviewerTag ++ stripRight q := by
  unfold pyStrip
  rw [stripLeft_interviewer, stripRight_append _ _ hq]

theorem pyStrip_user_line (a : List Char) (ha : stripRight a ≠ []) :
    pyStrip (userTag ++ a) = userTag ++ stripRight a := by
  unfold pyStrip
  rw [stripLeft_user, stripRight_append _ _ ha]

theorem parseMessageLoop_qline (q : List Char) (rest : List (List Char))
    (acc : Option (List Char) × Option (List Char)) (hq : stripRight q ≠ []) :
    parseMessageLoop ((interviewerTag ++ q) :: rest) acc =
      parseMessageLoop rest (some (pyStrip q), acc.2) := by
  obtain ⟨a1, a2⟩ := acc
  rw [parseMessageLoop]
  simp only [pyStrip_interviewer_line q hq, startsWithL_append_self, Bool.true_or, if_pos]
  rw [afterFirstColon_interviewer, pyStrip_stripRight]

theorem parseMessageLoop_aline (a : List Char) (rest : List (List Char))
    (acc : Option (List Char) × Option (List Char)) (ha : stripRight a ≠ []) :
    parseMessageLoop ((userTag ++ a) :: rest) acc =
      parseMessageLoop rest (acc.1, some (pyStrip a)) := by
  obtain ⟨a1, a2⟩ := acc
  rw [parseMessageLoop]
  simp only [pyStrip_user_line a ha, startsWithL_user_not_interviewer,
    startsWithL_user_not_ai, Bool.or_self, Bool.false_or, if_neg, Bool.false_eq_true,
    not_false_eq_true, startsWithL_append_self, Bool.true_or, if_pos]
  rw [afterFirstColon_user, pyStrip_stripRight]

theorem parseMessageLoop_skip (l : List Char) (rest : List (List Char))
    (acc : Option (List Char) × Option (List Char)) (h : taggedLine (pyStrip l) = false) :
    parseMessageLoop (l :: rest) acc = parseMessageLoop rest acc := by
  obtain ⟨a1, a2⟩ := acc
  unfold taggedLine at h
  simp only [Bool.or_eq_false_iff] at h
  obtain ⟨⟨⟨h1, h2⟩, h3⟩, h4⟩ := h
  rw [parseMessageLoop]
  simp only [h1, h2, h3, h4, Bool.or_self, Bool.false_eq_true, if_neg, not_false_eq_true]

theorem newline_not_mem_stripRight (a : List Char) (ha : '\n' ∉ a) :
    '\n' ∉ stripRight a :=
  fun h => ha (mem_of_mem_stripRight _ _ h)

theorem pyStrip_buildMessage (q a : List Char) (ha : stripRight a ≠ []) :
    pyStrip (buildMessage q a) =
      interviewerTag ++ q ++ '\n' :: (userTag ++ stripRight a) := by
  unfold buildMessage pyStrip
  have hcons : interviewerTag ++ q ++ '\n' :: (userTag ++ a) =
      interviewerTag ++ (q ++ '\n' :: (userTag ++ a)) := by simp
  rw [hcons, stripLeft_interviewer]
  have hassoc : interviewerTag ++ (q ++ '\n' :: (userTag ++ a)) =
      (interviewerTag ++ q ++ ['\n']) ++ (userTag ++ a) := by simp
  rw [hassoc]
  rw [stripRight_append _ _ (by rw [stripRight_append _ _ ha]; simp [userTag])]
  rw [stripRight_append _ _ ha]
  simp

theorem splitOnChar_buildLines (q tail : List Char) (hq : '\n' ∉ q) (htail : '\n' ∉ tail) :
    splitOnChar '\n' (interviewerTag ++ q ++ '\n' :: tail) =
      [interviewerTag ++ q, tail] := by
  have h1 : interviewerTag ++ q ++ '\n' :: tail =
      (interviewerTag ++ q) ++ '\n' :: tail := by simp
  rw [h1, splitOnChar_append _ _ _ (by
    intro hmem
    rcases List.mem_append.mp hmem with hmem | hmem
    · revert hmem; decide
    · exact hq hmem)]
  rw [splitOnChar_of_not_mem _ _ htail]

theorem parse_build_single (q a : List Char) (hq : '\n' ∉ q) (ha : '\n' ∉ a)
    (hq2 : pyStrip q ≠ []) (ha2 : pyStrip a ≠ []) :
    parseMessage (buildMessage q a) = (some (pyStrip q), some (pyStrip a)) := by
  have hra := stripRight_ne_nil_of_pyStrip a ha2
  have hrq := stripRight_ne_nil_of_pyStrip q hq2
  unfold parseMessage
  rw [pyStrip_buildMessage q a hra]
  rw [splitOnChar_buildLines q (userTag ++ stripRight a) hq (by
    intro hmem
    rcases List.mem_append.mp hmem with hmem | hmem
    · revert hmem; decide
    · exact newline_not_mem_stripRight a ha hmem)]
  rw [parseMessageLoop_qline _ _ _ hrq]
  rw [parseMessageLoop_aline _ _ _ (by rw [stripRight_idem]; exact hra)]
  rw [parseMessageLoop, pyStrip_stripRight]

theorem parse_build_untagged (q a1 a2 : List Char) (hq : '\n' ∉ q) (ha1 : '\n' ∉ a1)
    (ha2 : '\n' ∉ a2) (hq2 : pyStrip q ≠ []) (ha12 : pyStrip a1 ≠ [])
    (ha22 : pyStrip a2 ≠ []) (huntag : taggedLine (pyStrip a2) = false) :
    parseMessage (buildMessage q (a1 ++ '\n' :: a2)) =
      (some (pyStrip q), some (pyStrip a1)) := by
  have hra1 := stripRight_ne_nil_of_pyStrip a1 ha12
  have hra2 := stripRight_ne_nil_of_pyStrip a2 ha22
  have hrq := stripRight_ne_nil_of_pyStrip q hq2
  unfold parseMessage
  rw [pyStrip_buildMessage q (a1 ++ '\n' :: a2) (by
    have hsr : stripRight (a1 ++ '\n' :: a2) = (a1 ++ ['\n']) ++ stripRight a2 := by
      rw [show a1 ++ '\n' :: a2 = (a1 ++ ['\n']) ++ a2 from by simp]
      exact stripRight_append _ _ hra2
    rw [hsr]
    simp)]
  rw [show stripRight (a1 ++ '\n' :: a2) = a1 ++ '\n' :: stripRight a2 from by
    rw [show a1 ++ '\n' :: a2 = (a1 ++ ['\n']) ++ a2 from by simp]
    rw [stripRight_append _ _ hra2]
    simp]
  rw [show userTag ++ (a1 ++ '\n' :: stripRight a2) =
      (userTag ++ a1) ++ '\n' :: stripRight a2 from by simp]
  rw [show interviewerTag ++ q ++ '\n' :: ((userTag ++ a1) ++ '\n' :: stripRight a2) =
      (interviewerTag ++ q) ++ '\n' :: ((userTag ++ a1) ++ '\n' :: stripRight a2) from by
    simp]
  rw [splitOnChar_append _ _ _ (by
    intro hmem
    rcases List.mem_append.mp hmem with hmem | hmem
    · revert hmem; decide
    · exact hq hmem)]
  rw [splitOnChar_append _ _ _ (by
    intro hmem
    rcases List.mem_append.mp hmem with hmem | hmem
    · revert hmem; decide
    · exact ha1 hmem)]
  rw [splitOnChar_of_not_mem _ _ (newline_not_mem_stripRight a2 ha2)]
  rw [parseMessageLoop_qline _ _ _ hrq]
  rw [parseMessageLoop_aline _ _ _ hra1]
  rw [parseMessageLoop_skip _ _ _ (by rw [pyStrip_stripRight]; exact huntag)]
  rw [parseMessageLoop]

theorem parse_build_last_tagged (q a1 b : List Char) (hq : '\n' ∉ q) (ha1 : '\n' ∉ a1)
    (hb : '\n' ∉ b) (hq2 : pyStrip q ≠ []) (ha12 : pyStrip a1 ≠ [])
    (hb2 : pyStrip b ≠ []) :
    parseMessage (buildMessage q (a1 ++ '\n' :: (userTag ++ b))) =
      (some (pyStrip q), some (pyStrip b)) := by
  have hra1 := stripRight_ne_nil_of_pyStrip a1 ha12
  have hrb := stripRight_ne_nil_of_pyStrip b hb2
  have hrq := stripRight_ne_nil_of_pyStrip q hq2
  have hrub : stripRight (userTag ++ b) = userTag ++ stripRight b :=
    stripRight_append _ _ hrb
  unfold parseMessage
  rw [pyStrip_buildMessage q (a1 ++ '\n' :: (userTag ++ b)) (by
    rw [show a1 ++ '\n' :: (userTag ++ b) = (a1 ++ ['\n']) ++ (userTag ++ b) from by simp]
    rw [stripRight_append _ _ (by rw [hrub]; simp [userTag])]
    simp)]
  rw [show stripRight (a1 ++ '\n' :: (userTag ++ b)) =
      a1 ++ '\n' :: (userTag ++ stripRight b) from by
    rw [show a1 ++ '\n' :: (userTag ++ b) = (a1 ++ ['\n']) ++ (userTag ++ b) from by simp]
    rw [stripRight_append _ _ (by rw [hrub]; simp [userTag]), hrub]
    simp]
  rw [show userTag ++ (a1 ++ '\n' :: (userTag ++ stripRight b)) =
      (userTag ++ a1) ++ '\n' :: (userTag ++ stripRight b) from by simp]
  rw [show interviewerTag ++ q ++
        '\n' :: ((userTag ++ a1) ++ '\n' :: (userTag ++ stripRight b)) =
      (interviewerTag ++ q) ++
        '\n' :: ((userTag ++ a1) ++ '\n' :: (userTag ++ stripRight b)) from by simp]
  rw [splitOnChar_append _ _ _ (by
    intro hmem
    rcases List.mem_append.mp hmem with hmem | hmem
    · revert hmem; decide
    · exact hq hmem)]
  rw [splitOnChar_append _ _ _ (by
    intro hmem
    rcases List.mem_append.mp hmem with hmem | hmem
    · revert hmem; decide
    · exact ha1 hmem)]
  rw [splitOnChar_of_not_mem _ _ (by
    intro hmem
    rcases List.mem_append.mp hmem with hmem | hmem
    · revert hmem; decide
    · exact newline_not_mem_stripRight b hb hmem)]
  rw [parseMessageLoop_qline _ _ _ hrq]
  rw [parseMessageLoop_aline _ _ _ hra1]
  rw [parseMessageLoop_aline _ _ _ (by rw [stripRight_idem]; exact hrb)]
  rw [parseMessageLoop, pyStrip_stripRight]

/-! ## Claim C10 -/

/-- C10: round trip of transcript construction and parsing.  For
single-line question and answer that are non-empty after stripping,
parsing the `run_discussion` transcript `面试官：q\n用户：a` recovers
exactly `(strip q, strip a)`.  For a two-line answer whose continuation
line is untagged, the continuation is dropped and only the tagged first
line is recovered; when the continuation is itself `用户：`-tagged, the
last tagged line wins. -/
theorem c10_transcript_roundtrip :
    (∀ q a : List Char, '\n' ∉ q → '\n' ∉ a → pyStrip q ≠ [] → pyStrip a ≠ [] →
      parseMessage (buildMessage q a) = (some (pyStrip q), some (pyStrip a))) ∧
    (∀ q a1 a2 : List Char, '\n' ∉ q → '\n' ∉ a1 → '\n' ∉ a2 → pyStrip q ≠ [] →
      pyStrip a1 ≠ [] → pyStrip a2 ≠ [] → taggedLine (pyStrip a2) = false →
      parseMessage (buildMessage q (a1 ++ '\n' :: a2)) =
        (some (pyStrip q), some (pyStrip a1))) ∧
    (∀ q a1 b : List Char, '\n' ∉ q → '\n' ∉ a1 → '\n' ∉ b → pyStrip q ≠ [] →
      pyStrip a1 ≠ [] → pyStrip b ≠ [] →
      parseMessage (buildMessage q (a1 ++ '\n' :: (userTag ++ b))) =
        (some (pyStrip q), some (pyStrip b))) :=
  ⟨parse_build_single, parse_build_untagged, parse_build_last_tagged⟩

/-- C10 witness: the round trip at a concrete transcript with surrounding
whitespace, at a concrete two-line answer with an untagged continuation,
and at a concrete answer whose second line is `用户：`-tagged. -/
theorem c10_transcript_roundtrip_witness :
    parseMessage (buildMessage [' ', 'Q', '1'] ['A', '1', ' ']) =
      (some ['Q', '1'], some ['A', '1']) ∧
    parseMessage (buildMessage ['Q'] (['A'] ++ '\n' :: ['m', 'o', 'r', 'e'])) =
      (some ['Q'], some ['A']) ∧
    parseMessage (buildMessage ['Q'] (['A'] ++ '\n' :: (userTag ++ ['B']))) =
      (some ['Q'], some ['B']) :=
  ⟨c10_transcript_roundtrip.1 [' ', 'Q', '1'] ['A', '1', ' ']
      (by decide) (by decide) (by decide) (by decide),
    c10_transcript_roundtrip.2.1 ['Q'] ['A'] ['m', 'o', 'r', 'e']
      (by decide) (by decide) (by decide) (by decide) (by decide) (by decide) (by decide),
    c10_transcript_roundtrip.2.2 ['Q'] ['A'] ['B']
      (by decide) (by decide) (by decide) (by decide) (by decide) (by decide)⟩

/-! ## Claim C6 -/

/-- C6: for every message from which `_parse_message` cannot recover both
a question and an answer, each critic's `generate_comment` returns without
raising and sets its comment to exactly
`{"error": "无法解析问题和用户回答", "message": <the original message>}` (the
retrieval and LLM pipelines are never consulted on that path), and the
graph still proceeds through `web_critic` to `moderator_decide` with both
comments error-tagged. -/
theorem c6_parse_failure_error_record (msg : List Char) (search : Except String Unit)
    (o o2 : LlmOutcome) (s : ForumState)
    (h : qaRecovered msg = false) (hs : s.message = msg) :
    ragGenerateComment msg search o = .ok (parseErrorRecord msg) ∧
    webGenerateComment msg o2 = parseErrorRecord msg ∧
    Reach (fun _ _ => True) (Node.ragCritic, s)
      (Node.moderatorDecide,
        webCriticNode o2
          { s with rag_critic_comment := some (parseErrorRecord msg),
                   current_speaker := .str "rag_critic" }) ∧
    (webCriticNode o2 { s with rag_critic_comment := some (parseErrorRecord msg),
                               current_speaker := .str "rag_critic" }).rag_critic_comment =
      some (parseErrorRecord msg) ∧
    (webCriticNode o2 { s with rag_critic_comment := some (parseErrorRecord msg),
                               current_speaker := .str "rag_critic" }).web_critic_comment =
      some (parseErrorRecord msg) := by
  have hcond :
      (pyFalsyStrOpt (parseMessage msg).1 || pyFalsyStrOpt (parseMessage msg).2) = true := by
    unfold qaRecovered at h
    cases hx : pyFalsyStrOpt (parseMessage msg).1 <;>
      cases hy : pyFalsyStrOpt (parseMessage msg).2 <;> simp_all
  have h1 : ragGenerateComment msg search o = .ok (parseErrorRecord msg) := by
    unfold ragGenerateComment
    rcases hp : parseMessage msg with ⟨q1, a1⟩
    rw [hp] at hcond
    simp only at hcond ⊢
    rw [if_pos hcond]
  have h2 : webGenerateComment msg o2 = parseErrorRecord msg := by
    unfold webGenerateComment
    rcases hp : parseMessage msg with ⟨q1, a1⟩
    rw [hp] at hcond
    simp only at hcond ⊢
    rw [if_pos hcond]
  have hrag : ragCriticNode search o s =
      .ok { s with rag_critic_comment := some (parseErrorRecord msg),
                   current_speaker := .str "rag_critic" } := by
    unfold ragCriticNode
    rw [hs, h1]
  refine ⟨h1, h2, ?_, by simp [webCriticNode], ?_⟩
  · exact Relation.ReflTransGen.head (GStep.rag _ _ search o hrag)
      (Relation.ReflTransGen.single (GStep.web _ o2))
  · dsimp only [webCriticNode]
    rw [hs, h2]

/-- C6 witness: the theorem at a concrete untagged message, for both an
LLM success and an LLM failure oracle, with the two-step reachability
chain to `moderator_decide`. -/
theorem c6_parse_failure_error_record_witness :
    qaRecovered c6Message = false ∧
    ragGenerateComment c6Message (.ok ()) (.parsed (.obj [])) =
      .ok (parseErrorRecord c6Message) ∧
    webGenerateComment c6Message (.failure "boom") = parseErrorRecord c6Message ∧
    Reach (fun _ _ => True) (Node.ragCritic, c6State)
      (Node.moderatorDecide,
        webCriticNode (.failure "boom")
          { c6State with rag_critic_comment := some (parseErrorRecord c6Message),
                         current_speaker := .str "rag_critic" }) := by
  have h := c6_parse_failure_error_record c6Message (.ok ()) (.parsed (.obj []))
    (.failure "boom") c6State (by decide) rfl
  exact ⟨by decide, h.1, h.2.1, h.2.2.1⟩

/-! ## Claim C9 -/

/-- C9, counterexample: the RAG critic never computes or checks
`overall_score`; `_generate_comment_with_llm` returns the LLM's parsed
record unchanged.  A record with a perfect score triple and
`overall_score = 0` flows through `generate_comment` untouched, although
the rubric formula gives `round(0.4·10 + 0.4·10 + 0.2·10, 1) = 10`. -/
theorem c9_counterexample :
    ragGenerateComment (buildMessage ['Q'] ['A']) (.ok ()) (.parsed c9Bad) = .ok c9Bad ∧
    getNumField c9Bad "completeness_score" = some 10 ∧
    getNumField c9Bad "accuracy_score" = some 10 ∧
    getNumField c9Bad "depth_score" = some 10 ∧
    getNumField c9Bad "overall_score" = some 0 ∧
    roundTo1 (10 * (2 / 5) + 10 * (2 / 5) + 10 * (1 / 5)) = 10 ∧
    ragOverallConsistent c9Bad = false := by
  refine ⟨rfl, rfl, rfl, rfl, rfl, by norm_num [roundTo1], ?_⟩
  simp [ragOverallConsistent, c9Bad, getNumField, lookupD, List.lookup]
  norm_num [roundTo1]

/-- C9, amended: the formula `overall_score = round(0.4·completeness +
0.4·accuracy + 0.2·depth, 1)` is prescribed by the prompt but not enforced
in code: on a parseable transcript `generate_comment` returns the LLM's
parsed critique unchanged, so the returned record satisfies the formula
exactly when the LLM's output does. -/
theorem c9_overall_passthrough (msg : List Char) (j : Json) (h : qaRecovered msg = true) :
    ragGenerateComment msg (.ok ()) (.parsed j) = .ok j ∧
    (ragOverallConsistent j = true →
      ∀ r, ragGenerateComment msg (.ok ()) (.parsed j) = .ok r →
        ragOverallConsistent r = true) := by
  have hcond :
      (pyFalsyStrOpt (parseMessage msg).1 || pyFalsyStrOpt (parseMessage msg).2) = false := by
    unfold qaRecovered at h
    cases hx : pyFalsyStrOpt (parseMessage msg).1 <;>
      cases hy : pyFalsyStrOpt (parseMessage msg).2 <;> simp_all
  have h1 : ragGenerateComment msg (.ok ()) (.parsed j) = .ok j := by
    unfold ragGenerateComment
    rcases hp : parseMessage msg with ⟨q1, a1⟩
    rw [hp] at hcond
    simp only at hcond ⊢
    rw [if_neg (by rw [hcond]; exact Bool.false_ne_true)]
    rfl
  refine ⟨h1, fun hc r hr => ?_⟩
  rw [h1] at hr
  injection hr with hr
  rw [← hr]
  exact hc

/-- C9 witness: the amended theorem at a concrete parseable transcript and
a concrete critique satisfying the rubric formula
(`round(0.4·8 + 0.4·9 + 0.2·6, 1) = 8.0`). -/
theorem c9_overall_passthrough_witness :
    qaRecovered (buildMessage ['Q'] ['A']) = true ∧
    ragGenerateComment (buildMessage ['Q'] ['A']) (.ok ()) (.parsed c9Good) = .ok c9Good ∧
    ragOverallConsistent c9Good = true := by
  refine ⟨by decide, (c9_overall_passthrough (buildMessage ['Q'] ['A']) c9Good (by decide)).1,
    ?_⟩
  simp [ragOverallConsistent, c9Good, getNumField, lookupD, List.lookup]
  norm_num [roundTo1]
